import Mathlib

/-!
Shallow embedding of the network-topology resolver of the repository
(src/config.rs, src/client.rs, src/validator.rs).

Machine integers (u64, usize) are modelled as Nat: the source only uses
them as loop bounds, list lengths and counter values, with no wrapping
arithmetic.  Rust HashMap values are modelled as association lists
(insertion order preserved; lookup finds the first matching key), Vec as
List, Result as Except.
-/

set_option autoImplicit false

namespace Quickstart

/-- config.rs: pub type Span = Range of usize. -/
abbrev Span := Nat × Nat

/-- toml::Spanned: a value paired with its source span. -/
structure Spanned (α : Type) where
  span : Span
  val : α
  deriving DecidableEq

/-- config.rs lines 15-19: NodeNameSource. -/
inductive NodeNameSource where
  | Name (span : Span)
  | Kind (span : Span)
  deriving DecidableEq

/-- config.rs lines 21-28: NodeNameSource::span. -/
def NodeNameSource.span : NodeNameSource → Span
  | .Name s => s
  | .Kind s => s

/-- config.rs lines 30-38: NodeNameDefinition (constructor PrefixDef
renders the source's second variant). -/
inductive NodeNameDefinition where
  | Singular (source : NodeNameSource)
  | PrefixDef (prefixVal : String) (prefix_span : NodeNameSource) (count_span : Span)
  deriving DecidableEq

/-- config.rs lines 40-51: ConfigError. -/
inductive ConfigError where
  | InvalidCount (span : Span)
  | DuplicateName (name : String) (curr_def : NodeNameDefinition) (prev_def : NodeNameDefinition)
  deriving DecidableEq

/-- client.rs lines 11-21: ClientKind, closed enumeration. -/
inductive ClientKind where
  | Ream
  | Zeam
  | Qlean
  | Lantern
  | Lighthouse
  | Grandine
  | Ethrex
  deriving DecidableEq

/-- client.rs: strum Display with serialize_all snake_case. -/
def ClientKind.toString : ClientKind → String
  | .Ream => "ream"
  | .Zeam => "zeam"
  | .Qlean => "qlean"
  | .Lantern => "lantern"
  | .Lighthouse => "lighthouse"
  | .Grandine => "grandine"
  | .Ethrex => "ethrex"

/-- client.rs: strum EnumString with serialize_all snake_case: FromStr
matches each variant's snake_case serialization exactly (strum is
case-sensitive without the ascii_case_insensitive attribute); anything
else is a parse error (modelled as none). -/
def ClientKind.fromStr (s : String) : Option ClientKind :=
  if s == "ream" then some .Ream
  else if s == "zeam" then some .Zeam
  else if s == "qlean" then some .Qlean
  else if s == "lantern" then some .Lantern
  else if s == "lighthouse" then some .Lighthouse
  else if s == "grandine" then some .Grandine
  else if s == "ethrex" then some .Ethrex
  else none

/-- The canonical textual identifiers, in declaration order. -/
def kindStrings : List String :=
  ["ream", "zeam", "qlean", "lantern", "lighthouse", "grandine", "ethrex"]

/-- config.rs lines 175-181: ClientSource. -/
inductive ClientSource where
  | Default (kind : ClientKind)
  | Binary (kind : ClientKind) (bin : String)
  | Image (kind : ClientKind) (image : String)
  deriving DecidableEq

/-- config.rs lines 183-191: ClientSource::kind. -/
def ClientSource.kind : ClientSource → ClientKind
  | .Default k => k
  | .Binary k _ => k
  | .Image k _ => k

/-- config.rs lines 193-230: NodeConfig (u64 fields as Nat). -/
structure NodeConfig where
  name : Option (Spanned String)
  client : Spanned ClientSource
  count : Spanned Nat
  validator_count : Nat
  extra_args : List String
  deriving DecidableEq

/-- config.rs lines 232-235: default value for NodeConfig.count. -/
def default_count : Spanned Nat := ⟨(0, 0), 1⟩

/-- config.rs lines 237-240: default value for NodeConfig.validator_count. -/
def default_validator_count : Nat := 1

/-- config.rs lines 242-248: NetworkConfig. -/
structure NetworkConfig where
  name : String
  node : List NodeConfig
  deriving DecidableEq

/-- config.rs lines 250-255: ResolvedNodeConfig (field def renamed defn,
a Lean keyword). -/
structure ResolvedNodeConfig where
  defn : NodeNameDefinition
  validators : List Nat
  deriving DecidableEq

/-- config.rs lines 257-261: ResolvedValidatorConfig (Vec of u8 as List Nat). -/
structure ResolvedValidatorConfig where
  private_key : List Nat
  public_key : List Nat
  deriving DecidableEq

/-- config.rs lines 263-268: ResolvedNetworkConfig; the two HashMaps are
modelled as association lists in insertion order. -/
structure ResolvedNetworkConfig where
  validators : List ResolvedValidatorConfig
  nodes : List (String × ResolvedNodeConfig)
  counters : List (String × Nat)
  deriving DecidableEq

/-- config.rs line 270. -/
def NUM_ACTIVE_EPOCHS : Nat := 262144

/-- HashMap lookup on the association-list model: first matching key. -/
def alookup {α : Type} : List (String × α) → String → Option α
  | [], _ => none
  | (k, v) :: t, key => if k == key then some v else alookup t key

/-- HashMap write on the association-list model: replace the value of an
existing key, or append a fresh entry. -/
def aset : List (String × Nat) → String → Nat → List (String × Nat)
  | [], k, v => [(k, v)]
  | (k0, v0) :: t, k, v => if k0 == k then (k, v) :: t else (k0, v0) :: aset t k v

/-- config.rs lines 280-289: the identity basis of a spec: the explicit
name if present, else the client kind rendered to text. -/
def specBasis (node : NodeConfig) : String × NodeNameSource :=
  match node.name with
  | some v => (v.val, NodeNameSource.Name v.span)
  | none => (ClientKind.toString (ClientSource.kind node.client.val), NodeNameSource.Kind node.client.span)

/-- config.rs lines 305-324: the name and definition of the next instance,
together with the updated counter table.  For count = 1 the basis is used
verbatim (Singular) and the counters are untouched; otherwise the shared
per-prefix counter is read-and-bumped (entry / and_modify / or_insert). -/
def nextNameDef (counters : List (String × Nat)) (node_id : String)
    (src : NodeNameSource) (count : Nat) (cspan : Span) :
    String × NodeNameDefinition × List (String × Nat) :=
  if count == 1 then
    (node_id, NodeNameDefinition.Singular src, counters)
  else
    match alookup counters node_id with
    | some v =>
        (node_id ++ "_" ++ Nat.repr (v + 1),
         NodeNameDefinition.PrefixDef node_id src cspan,
         aset counters node_id (v + 1))
    | none =>
        (node_id ++ "_" ++ Nat.repr 0,
         NodeNameDefinition.PrefixDef node_id src cspan,
         aset counters node_id 0)

/-- config.rs lines 291-337: one iteration of the per-spec instance loop:
reserve validator_count fresh validator slots (the key-generation call at
line 296 is commented out in the source; line 297 stores empty byte
vectors), compute the instance name, and insert it into the global node
table, failing on a duplicate. -/
def resolveStep (node_id : String) (src : NodeNameSource) (count : Nat)
    (cspan : Span) (vc : Nat) (self : ResolvedNetworkConfig) :
    Except ConfigError ResolvedNetworkConfig :=
  let validator_indices := List.range' self.validators.length vc
  let validators' := self.validators ++ List.replicate vc ⟨[], []⟩
  let nd := nextNameDef self.counters node_id src count cspan
  match alookup self.nodes nd.1 with
  | some old => .error (ConfigError.DuplicateName nd.1 nd.2.1 old.defn)
  | none =>
      .ok ⟨validators', self.nodes ++ [(nd.1, ⟨nd.2.1, validator_indices⟩)], nd.2.2⟩

/-- config.rs line 291: for _ in 0..count, iterated via fuel. -/
def resolveLoop (node_id : String) (src : NodeNameSource) (count : Nat)
    (cspan : Span) (vc : Nat) :
    Nat → ResolvedNetworkConfig → Except ConfigError ResolvedNetworkConfig
  | 0, s => .ok s
  | n + 1, s =>
      match resolveStep node_id src count cspan vc s with
      | .error e => .error e
      | .ok s' => resolveLoop node_id src count cspan vc n s'

/-- config.rs lines 273-341: ResolvedNetworkConfig::resolve (one spec). -/
def ResolvedNetworkConfig.resolveNode (self : ResolvedNetworkConfig)
    (node : NodeConfig) : Except ConfigError ResolvedNetworkConfig :=
  let count := node.count.val
  if count == 0 then
    .error (ConfigError.InvalidCount node.count.span)
  else
    let b := specBasis node
    resolveLoop b.1 b.2 count node.count.span node.validator_count count self

/-- config.rs lines 352-354: the spec loop of NetworkConfig::resolve. -/
def resolveList : List NodeConfig → ResolvedNetworkConfig →
    Except ConfigError ResolvedNetworkConfig
  | [], s => .ok s
  | node :: t, s =>
      match s.resolveNode node with
      | .error e => .error e
      | .ok s' => resolveList t s'

/-- config.rs lines 344-357: NetworkConfig::resolve. -/
def NetworkConfig.resolve (cfg : NetworkConfig) :
    Except ConfigError ResolvedNetworkConfig :=
  resolveList cfg.node ⟨[], [], []⟩

/-- The sequence of instance names one spec generates from a given counter
table, with the resulting table (name part of nextNameDef, iterated). -/
def nameLoop (node_id : String) (src : NodeNameSource) (count : Nat)
    (cspan : Span) :
    Nat → List (String × Nat) → List String × List (String × Nat)
  | 0, cs => ([], cs)
  | n + 1, cs =>
      let nd := nextNameDef cs node_id src count cspan
      let r := nameLoop node_id src count cspan n nd.2.2
      (nd.1 :: r.1, r.2)

/-- All instance names a spec list generates, in resolution order,
threading the shared counter table. -/
def namesList : List NodeConfig → List (String × Nat) →
    List String × List (String × Nat)
  | [], cs => ([], cs)
  | node :: t, cs =>
      let b := specBasis node
      let r := nameLoop b.1 b.2 node.count.val node.count.span node.count.val cs
      let r2 := namesList t r.2
      (r.1 ++ r2.1, r2.2)

/-- All node names a config resolves to (when every count is positive). -/
def allNames (cfg : NetworkConfig) : List String :=
  (namesList cfg.node []).1

/-! ### Association-list facts -/

theorem alookup_append {α : Type} (l1 l2 : List (String × α)) (k : String) :
    alookup (l1 ++ l2) k
      = match alookup l1 k with
        | some v => some v
        | none => alookup l2 k := by
  induction l1 with
  | nil => rfl
  | cons p t ih =>
      obtain ⟨k0, v0⟩ := p
      simp only [List.cons_append, alookup]
      by_cases hk : k0 == k
      · simp [hk]
      · simp only [Bool.not_eq_true] at hk
        simp [hk, ih]

theorem alookup_eq_none {α : Type} (l : List (String × α)) (k : String)
    (h : k ∉ l.map Prod.fst) : alookup l k = none := by
  induction l with
  | nil => rfl
  | cons p t ih =>
      obtain ⟨k0, v0⟩ := p
      simp only [List.map_cons, List.mem_cons, not_or] at h
      simp only [alookup]
      rw [if_neg, ih h.2]
      simp only [beq_iff_eq]
      exact fun hk => h.1 hk.symm

/-! ### Structural facts about the resolver -/

theorem resolveList_append (l1 l2 : List NodeConfig) (s : ResolvedNetworkConfig) :
    resolveList (l1 ++ l2) s
      = match resolveList l1 s with
        | .error e => .error e
        | .ok s' => resolveList l2 s' := by
  induction l1 generalizing s with
  | nil => rfl
  | cons n t ih =>
      simp only [List.cons_append, resolveList]
      cases s.resolveNode n <;> simp [ih]

/-- How the resolver treats a spec with count = 1 and an explicit name:
one singular instance, counters untouched. -/
theorem resolveNode_singular (s : ResolvedNetworkConfig) (node : NodeConfig)
    (nm : String) (sp : Span) (hn : node.name = some ⟨sp, nm⟩)
    (hc : node.count.val = 1) :
    s.resolveNode node
      = match alookup s.nodes nm with
        | some old =>
            .error (ConfigError.DuplicateName nm
              (NodeNameDefinition.Singular (NodeNameSource.Name sp)) old.defn)
        | none =>
            .ok ⟨s.validators ++ List.replicate node.validator_count ⟨[], []⟩,
                 s.nodes ++ [(nm, ⟨NodeNameDefinition.Singular (NodeNameSource.Name sp),
                   List.range' s.validators.length node.validator_count⟩)],
                 s.counters⟩ := by
  simp only [ResolvedNetworkConfig.resolveNode, hc, specBasis, hn, resolveLoop,
    resolveStep, nextNameDef]
  cases halk : alookup s.nodes nm <;> simp [halk, resolveLoop]

theorem resolveStep_mono (node_id : String) (src : NodeNameSource) (count : Nat)
    (cspan : Span) (vc : Nat) (s s' : ResolvedNetworkConfig)
    (h : resolveStep node_id src count cspan vc s = .ok s') :
    ∃ tail, s'.nodes = s.nodes ++ tail := by
  simp only [resolveStep] at h
  cases halk : alookup s.nodes (nextNameDef s.counters node_id src count cspan).1 <;>
    simp only [halk] at h
  · cases h
    exact ⟨_, rfl⟩
  · cases h

theorem resolveLoop_mono (node_id : String) (src : NodeNameSource) (count : Nat)
    (cspan : Span) (vc : Nat) :
    ∀ (n : Nat) (s s' : ResolvedNetworkConfig),
      resolveLoop node_id src count cspan vc n s = .ok s' →
      ∃ tail, s'.nodes = s.nodes ++ tail := by
  intro n
  induction n with
  | zero =>
      intro s s' h
      cases h
      exact ⟨[], by simp⟩
  | succ n ih =>
      intro s s' h
      simp only [resolveLoop] at h
      cases hstep : resolveStep node_id src count cspan vc s <;> rw [hstep] at h
      · cases h
      · obtain ⟨t1, ht1⟩ := resolveStep_mono _ _ _ _ _ _ _ hstep
        obtain ⟨t2, ht2⟩ := ih _ _ h
        exact ⟨t1 ++ t2, by rw [ht2, ht1, List.append_assoc]⟩

theorem resolveNode_mono (s s' : ResolvedNetworkConfig) (node : NodeConfig)
    (h : s.resolveNode node = .ok s') : ∃ tail, s'.nodes = s.nodes ++ tail := by
  unfold ResolvedNetworkConfig.resolveNode at h
  by_cases hc : (node.count.val == 0) = true
  · rw [if_pos hc] at h; cases h
  · rw [if_neg hc] at h
    exact resolveLoop_mono _ _ _ _ _ _ _ _ h

theorem resolveList_mono :
    ∀ (l : List NodeConfig) (s s' : ResolvedNetworkConfig),
      resolveList l s = .ok s' → ∃ tail, s'.nodes = s.nodes ++ tail := by
  intro l
  induction l with
  | nil =>
      intro s s' h
      cases h
      exact ⟨[], by simp⟩
  | cons n t ih =>
      intro s s' h
      simp only [resolveList] at h
      cases hn : s.resolveNode n <;> rw [hn] at h
      · cases h
      · obtain ⟨t1, ht1⟩ := resolveNode_mono _ _ _ hn
        obtain ⟨t2, ht2⟩ := ih _ _ h
        exact ⟨t1 ++ t2, by rw [ht2, ht1, List.append_assoc]⟩

theorem nameLoop_length (node_id : String) (src : NodeNameSource) (count : Nat)
    (cspan : Span) :
    ∀ (n : Nat) (cs : List (String × Nat)),
      (nameLoop node_id src count cspan n cs).1.length = n := by
  intro n
  induction n with
  | zero => intro cs; rfl
  | succ n ih => intro cs; simp [nameLoop, ih]

theorem namesList_length :
    ∀ (nodes : List NodeConfig) (cs : List (String × Nat)),
      (namesList nodes cs).1.length = (nodes.map (fun nd => nd.count.val)).sum := by
  intro nodes
  induction nodes with
  | nil => intro cs; rfl
  | cons nd t ih =>
      intro cs
      simp [namesList, nameLoop_length, ih]

/-- Success characterization of the per-spec instance loop: when the names
it is about to generate are fresh and pairwise distinct, it succeeds and
appends exactly those names, one validator block per instance. -/
theorem resolveLoop_ok (node_id : String) (src : NodeNameSource) (count : Nat)
    (cspan : Span) (vc : Nat) :
    ∀ (n : Nat) (s : ResolvedNetworkConfig),
      (∀ nm ∈ (nameLoop node_id src count cspan n s.counters).1,
          nm ∉ s.nodes.map Prod.fst) →
      (nameLoop node_id src count cspan n s.counters).1.Nodup →
      ∃ s', resolveLoop node_id src count cspan vc n s = .ok s' ∧
        s'.validators = s.validators ++ List.replicate (n * vc) ⟨[], []⟩ ∧
        s'.nodes.map Prod.fst
          = s.nodes.map Prod.fst ++ (nameLoop node_id src count cspan n s.counters).1 ∧
        s'.counters = (nameLoop node_id src count cspan n s.counters).2 := by
  intro n
  induction n with
  | zero =>
      intro s _ _
      exact ⟨s, rfl, by simp, by simp [nameLoop], by simp [nameLoop]⟩
  | succ n ih =>
      intro s hfresh hnodup
      simp only [nameLoop] at hfresh hnodup ⊢
      have hhead : (nextNameDef s.counters node_id src count cspan).1 ∉ s.nodes.map Prod.fst :=
        hfresh _ (List.mem_cons_self _ _)
      have halk : alookup s.nodes (nextNameDef s.counters node_id src count cspan).1 = none :=
        alookup_eq_none _ _ hhead
      simp only [List.nodup_cons] at hnodup
      set nd := nextNameDef s.counters node_id src count cspan with hnd
      have hstep : resolveStep node_id src count cspan vc s
          = .ok ⟨s.validators ++ List.replicate vc ⟨[], []⟩,
                 s.nodes ++ [(nd.1, ⟨nd.2.1, List.range' s.validators.length vc⟩)],
                 nd.2.2⟩ := by
        simp only [resolveStep, ← hnd, halk]
      simp only [resolveLoop, hstep]
      obtain ⟨s', h1, h2, h3, h4⟩ := ih
        ⟨s.validators ++ List.replicate vc ⟨[], []⟩,
         s.nodes ++ [(nd.1, ⟨nd.2.1, List.range' s.validators.length vc⟩)], nd.2.2⟩
        (by
          intro nm hm
          simp only [List.map_append, List.map_cons, List.map_nil, List.mem_append,
            List.mem_cons, List.not_mem_nil, or_false, not_or]
          refine ⟨hfresh nm (List.mem_cons_of_mem _ hm), ?_⟩
          intro he
          exact hnodup.1 (he ▸ hm))
        hnodup.2
      refine ⟨s', h1, ?_, ?_, h4⟩
      · rw [h2, List.append_assoc, ← List.replicate_add, Nat.succ_mul, Nat.add_comm]
      · rw [h3]
        simp [List.append_assoc]

/-- Success characterization of one spec: positive count plus fresh,
distinct instance names. -/
theorem resolveNode_ok (s : ResolvedNetworkConfig) (node : NodeConfig)
    (hc : 1 ≤ node.count.val)
    (hfresh : ∀ nm ∈ (nameLoop (specBasis node).1 (specBasis node).2 node.count.val
        node.count.span node.count.val s.counters).1, nm ∉ s.nodes.map Prod.fst)
    (hnodup : (nameLoop (specBasis node).1 (specBasis node).2 node.count.val
        node.count.span node.count.val s.counters).1.Nodup) :
    ∃ s', s.resolveNode node = .ok s' ∧
      s'.validators = s.validators
        ++ List.replicate (node.count.val * node.validator_count) ⟨[], []⟩ ∧
      s'.nodes.map Prod.fst
        = s.nodes.map Prod.fst ++ (nameLoop (specBasis node).1 (specBasis node).2
            node.count.val node.count.span node.count.val s.counters).1 ∧
      s'.counters = (nameLoop (specBasis node).1 (specBasis node).2 node.count.val
          node.count.span node.count.val s.counters).2 := by
  have h0 : (node.count.val == 0) = false := by
    simp only [beq_eq_false_iff_ne, ne_eq]
    omega
  simp only [ResolvedNetworkConfig.resolveNode, h0, Bool.false_eq_true, if_false]
  exact resolveLoop_ok _ _ _ _ _ _ s hfresh hnodup

/-- Success characterization of the whole spec list. -/
theorem resolveList_ok :
    ∀ (nodes : List NodeConfig) (s : ResolvedNetworkConfig),
      (∀ node ∈ nodes, 1 ≤ node.count.val) →
      (∀ nm ∈ (namesList nodes s.counters).1, nm ∉ s.nodes.map Prod.fst) →
      (namesList nodes s.counters).1.Nodup →
      ∃ s', resolveList nodes s = .ok s' ∧
        s'.validators = s.validators ++ List.replicate
          ((nodes.map (fun nd => nd.count.val * nd.validator_count)).sum) ⟨[], []⟩ ∧
        s'.nodes.map Prod.fst = s.nodes.map Prod.fst ++ (namesList nodes s.counters).1 ∧
        s'.counters = (namesList nodes s.counters).2 := by
  intro nodes
  induction nodes with
  | nil =>
      intro s _ _ _
      exact ⟨s, rfl, by simp, by simp [namesList], by simp [namesList]⟩
  | cons nd t ih =>
      intro s hc hfresh hnodup
      simp only [namesList] at hfresh hnodup ⊢
      rw [List.nodup_append] at hnodup
      obtain ⟨s1, h1, h2, h3, h4⟩ := resolveNode_ok s nd (hc nd (List.mem_cons_self _ _))
        (fun nm hm => hfresh nm (List.mem_append_left _ hm)) hnodup.1
      obtain ⟨s2, g1, g2, g3, g4⟩ := ih s1 (fun node hm => hc node (List.mem_cons_of_mem _ hm))
        (by
          rw [h4]
          intro nm hm
          rw [h3]
          simp only [List.mem_append, not_or]
          refine ⟨hfresh nm (List.mem_append_right _ hm), ?_⟩
          intro hin
          exact hnodup.2.2 hin hm)
        (by rw [h4]; exact hnodup.2.1)
      refine ⟨s2, ?_, ?_, ?_, ?_⟩
      · simp only [resolveList, h1, g1]
      · rw [g2, h2, List.append_assoc, ← List.replicate_add, List.map_cons, List.sum_cons]
      · rw [g3, h3, h4, List.append_assoc]
      · rw [g4, h4]

/-- The validator-partition invariant of a resolver state: the validator
index lists of the resolved nodes, in insertion order, flatten to exactly
the interval of valid indices; and each list is contiguous. -/
def ValidatorInv (s : ResolvedNetworkConfig) : Prop :=
  (s.nodes.map (fun e => e.2.validators)).flatten
      = List.range' 0 s.validators.length ∧
  ∀ e ∈ s.nodes, ∃ st, e.2.validators = List.range' st e.2.validators.length

theorem resolveStep_inv (node_id : String) (src : NodeNameSource) (count : Nat)
    (cspan : Span) (vc : Nat) (s s' : ResolvedNetworkConfig)
    (h : resolveStep node_id src count cspan vc s = .ok s')
    (hinv : ValidatorInv s) : ValidatorInv s' := by
  simp only [resolveStep] at h
  cases halk : alookup s.nodes (nextNameDef s.counters node_id src count cspan).1 <;>
    simp only [halk] at h
  · cases h
    constructor
    · simp only [List.map_append, List.map_cons, List.map_nil, List.flatten_append,
        List.flatten_cons, List.flatten_nil, List.append_nil, hinv.1,
        List.length_append, List.length_replicate]
      have := List.range'_append 0 s.validators.length vc 1
      simp only [Nat.one_mul, Nat.zero_add] at this
      rw [this, Nat.add_comm]
    · intro e he
      rcases List.mem_append.mp he with h1 | h1
      · exact hinv.2 e h1
      · simp only [List.mem_cons, List.not_mem_nil, or_false] at h1
        subst h1
        exact ⟨s.validators.length, by simp [List.length_range']⟩
  · cases h

theorem resolveLoop_inv (node_id : String) (src : NodeNameSource) (count : Nat)
    (cspan : Span) (vc : Nat) :
    ∀ (n : Nat) (s s' : ResolvedNetworkConfig),
      resolveLoop node_id src count cspan vc n s = .ok s' →
      ValidatorInv s → ValidatorInv s' := by
  intro n
  induction n with
  | zero =>
      intro s s' h hinv
      cases h
      exact hinv
  | succ n ih =>
      intro s s' h hinv
      simp only [resolveLoop] at h
      cases hstep : resolveStep node_id src count cspan vc s <;> rw [hstep] at h
      · cases h
      · exact ih _ _ h (resolveStep_inv _ _ _ _ _ _ _ hstep hinv)

theorem resolveNode_inv (s s' : ResolvedNetworkConfig) (node : NodeConfig)
    (h : s.resolveNode node = .ok s') (hinv : ValidatorInv s) : ValidatorInv s' := by
  unfold ResolvedNetworkConfig.resolveNode at h
  by_cases hc : (node.count.val == 0) = true
  · rw [if_pos hc] at h; cases h
  · rw [if_neg hc] at h
    exact resolveLoop_inv _ _ _ _ _ _ _ _ h hinv

theorem resolveStep_tail (node_id : String) (src : NodeNameSource) (count : Nat)
    (cspan : Span) (vc : Nat) (s s' : ResolvedNetworkConfig)
    (h : resolveStep node_id src count cspan vc s = .ok s') :
    ∃ e, s'.nodes = s.nodes ++ [e] ∧ e.2.validators.length = vc := by
  simp only [resolveStep] at h
  cases halk : alookup s.nodes (nextNameDef s.counters node_id src count cspan).1 <;>
    simp only [halk] at h
  · cases h
    exact ⟨_, rfl, List.length_range' _ _ _⟩
  · cases h

theorem resolveLoop_tail (node_id : String) (src : NodeNameSource) (count : Nat)
    (cspan : Span) (vc : Nat) :
    ∀ (n : Nat) (s s' : ResolvedNetworkConfig),
      resolveLoop node_id src count cspan vc n s = .ok s' →
      ∃ tail, s'.nodes = s.nodes ++ tail ∧ tail.length = n ∧
        ∀ e ∈ tail, e.2.validators.length = vc := by
  intro n
  induction n with
  | zero =>
      intro s s' h
      cases h
      exact ⟨[], by simp, rfl, by simp⟩
  | succ n ih =>
      intro s s' h
      simp only [resolveLoop] at h
      cases hstep : resolveStep node_id src count cspan vc s <;> rw [hstep] at h
      · cases h
      · obtain ⟨e, he, hlen⟩ := resolveStep_tail _ _ _ _ _ _ _ hstep
        obtain ⟨tail, ht, htl, htv⟩ := ih _ _ h
        refine ⟨e :: tail, ?_, by simp [htl], ?_⟩
        · rw [ht, he]
          simp
        · intro x hx
          rcases List.mem_cons.mp hx with hx | hx
          · exact hx ▸ hlen
          · exact htv x hx

theorem resolveNode_tail (s s' : ResolvedNetworkConfig) (node : NodeConfig)
    (h : s.resolveNode node = .ok s') :
    ∃ tail, s'.nodes = s.nodes ++ tail ∧ tail.length = node.count.val ∧
      ∀ e ∈ tail, e.2.validators.length = node.validator_count := by
  unfold ResolvedNetworkConfig.resolveNode at h
  by_cases hc : (node.count.val == 0) = true
  · rw [if_pos hc] at h; cases h
  · rw [if_neg hc] at h
    exact resolveLoop_tail _ _ _ _ _ _ _ _ h

/-- On success, the resolved node entries decompose into one block per
spec, in spec order: a spec contributes count entries, each reserving
exactly validator_count validator indices. -/
theorem resolveList_blocks :
    ∀ (l : List NodeConfig) (s s' : ResolvedNetworkConfig),
      resolveList l s = .ok s' →
      ∃ blocks : List (List (String × ResolvedNodeConfig)),
        s'.nodes = s.nodes ++ blocks.flatten ∧
        List.Forall₂ (fun (node : NodeConfig) blk =>
          blk.length = node.count.val ∧
          ∀ e ∈ blk, e.2.validators.length = node.validator_count) l blocks := by
  intro l
  induction l with
  | nil =>
      intro s s' h
      cases h
      exact ⟨[], by simp, List.Forall₂.nil⟩
  | cons n t ih =>
      intro s s' h
      simp only [resolveList] at h
      cases hn : s.resolveNode n <;> rw [hn] at h
      · cases h
      · obtain ⟨tail, ht, htl, htv⟩ := resolveNode_tail _ _ _ hn
        obtain ⟨blocks, hb, hf⟩ := ih _ _ h
        refine ⟨tail :: blocks, ?_, List.Forall₂.cons ⟨htl, htv⟩ hf⟩
        rw [hb, ht]
        simp [List.append_assoc]

theorem resolveList_inv :
    ∀ (l : List NodeConfig) (s s' : ResolvedNetworkConfig),
      resolveList l s = .ok s' → ValidatorInv s → ValidatorInv s' := by
  intro l
  induction l with
  | nil =>
      intro s s' h hinv
      cases h
      exact hinv
  | cons n t ih =>
      intro s s' h hinv
      simp only [resolveList] at h
      cases hn : s.resolveNode n <;> rw [hn] at h
      · cases h
      · exact ih _ _ h (resolveNode_inv _ _ _ hn hinv)

/-! ### Claim theorems -/

/-- C1: for every config in which every node spec has count at least 1 and
all resolved node names are pairwise distinct, NetworkConfig::resolve
succeeds, the resolved nodes map has as many entries as the sum of the
counts, and the validator list length is the sum of count times
validator_count over the specs. -/
theorem c1_resolve_counts (cfg : NetworkConfig)
    (hc : ∀ node ∈ cfg.node, 1 ≤ node.count.val)
    (hnd : (allNames cfg).Nodup) :
    ∃ s, cfg.resolve = .ok s ∧
      s.nodes.length = (cfg.node.map (fun nd => nd.count.val)).sum ∧
      s.validators.length
        = (cfg.node.map (fun nd => nd.count.val * nd.validator_count)).sum := by
  obtain ⟨s, h1, h2, h3, h4⟩ := resolveList_ok cfg.node ⟨[], [], []⟩ hc
    (by intro nm _; simp) (by exact hnd)
  refine ⟨s, h1, ?_, ?_⟩
  · have := congrArg List.length h3
    simp only [List.length_map, List.length_append, List.length_nil, Nat.zero_add] at this
    rw [this]
    exact namesList_length cfg.node []
  · rw [h2]
    simp [List.length_replicate]

def cfgC1w : NetworkConfig :=
  ⟨"net",
    [⟨some ⟨(10, 13), "a"⟩, ⟨(20, 26), ClientSource.Default ClientKind.Ream⟩, ⟨(0, 0), 1⟩, 1, []⟩,
     ⟨none, ⟨(30, 36), ClientSource.Default ClientKind.Zeam⟩, ⟨(40, 41), 2⟩, 3, []⟩]⟩

theorem c1_resolve_counts_witness :
    (∀ node ∈ cfgC1w.node, 1 ≤ node.count.val) ∧ (allNames cfgC1w).Nodup ∧
    ∃ s, cfgC1w.resolve = .ok s ∧
      s.nodes.length = (cfgC1w.node.map (fun nd => nd.count.val)).sum ∧
      s.validators.length
        = (cfgC1w.node.map (fun nd => nd.count.val * nd.validator_count)).sum :=
  ⟨by decide, by decide, c1_resolve_counts cfgC1w (by decide) (by decide)⟩

/-- C2: a spec with count 3, no explicit name and client kind k yields the
generated names k_0, k_1, k_2, and a later spec with count 2 and the same
implicit kind continues the shared per-prefix counter with k_3, k_4
instead of restarting at 0. -/
theorem c2_shared_prefix_counter (k : ClientKind) :
    ((NetworkConfig.resolve ⟨"net",
        [⟨none, ⟨(1, 2), ClientSource.Default k⟩, ⟨(3, 4), 3⟩, 1, []⟩,
         ⟨none, ⟨(5, 6), ClientSource.Default k⟩, ⟨(7, 8), 2⟩, 1, []⟩]⟩).toOption.map
      (fun s => s.nodes.map Prod.fst))
      = some [ClientKind.toString k ++ "_0", ClientKind.toString k ++ "_1",
              ClientKind.toString k ++ "_2", ClientKind.toString k ++ "_3",
              ClientKind.toString k ++ "_4"] := by
  cases k <;> rfl

/-- C3: the key-generation call of config.rs line 296 is commented out in
the source; resolution stores empty private and public key byte sequences
for every validator slot instead of the serialized output of
generate_keypair(0, NUM_ACTIVE_EPOCHS). -/
theorem c3_validator_keys_stubbed :
    NetworkConfig.resolve ⟨"net",
        [⟨some ⟨(0, 1), "a"⟩, ⟨(2, 3), ClientSource.Default ClientKind.Ream⟩,
          ⟨(4, 5), 1⟩, 2, []⟩]⟩
      = .ok ⟨[⟨[], []⟩, ⟨[], []⟩],
          [("a", ⟨NodeNameDefinition.Singular (NodeNameSource.Name (0, 1)), [0, 1]⟩)],
          []⟩ := rfl

/-- C4 counterexample: a config containing a spec with count 0 whose
earlier specs collide on the name a fails with DuplicateName, not with
InvalidCount at the count-0 spec's span. -/
theorem c4_counterexample :
    NetworkConfig.resolve ⟨"net",
        [⟨some ⟨(0, 1), "a"⟩, ⟨(2, 3), ClientSource.Default ClientKind.Ream⟩, ⟨(4, 5), 1⟩, 1, []⟩,
         ⟨some ⟨(6, 7), "a"⟩, ⟨(8, 9), ClientSource.Default ClientKind.Ream⟩, ⟨(10, 11), 1⟩, 1, []⟩,
         ⟨some ⟨(12, 13), "b"⟩, ⟨(14, 15), ClientSource.Default ClientKind.Ream⟩, ⟨(16, 17), 0⟩, 1, []⟩]⟩
      = .error (ConfigError.DuplicateName "a"
          (NodeNameDefinition.Singular (NodeNameSource.Name (6, 7)))
          (NodeNameDefinition.Singular (NodeNameSource.Name (0, 1)))) ∧
    NetworkConfig.resolve ⟨"net",
        [⟨some ⟨(0, 1), "a"⟩, ⟨(2, 3), ClientSource.Default ClientKind.Ream⟩, ⟨(4, 5), 1⟩, 1, []⟩,
         ⟨some ⟨(6, 7), "a"⟩, ⟨(8, 9), ClientSource.Default ClientKind.Ream⟩, ⟨(10, 11), 1⟩, 1, []⟩,
         ⟨some ⟨(12, 13), "b"⟩, ⟨(14, 15), ClientSource.Default ClientKind.Ream⟩, ⟨(16, 17), 0⟩, 1, []⟩]⟩
      ≠ .error (ConfigError.InvalidCount (16, 17)) := by
  refine ⟨rfl, ?_⟩
  intro h
  rw [show NetworkConfig.resolve ⟨"net",
        [⟨some ⟨(0, 1), "a"⟩, ⟨(2, 3), ClientSource.Default ClientKind.Ream⟩, ⟨(4, 5), 1⟩, 1, []⟩,
         ⟨some ⟨(6, 7), "a"⟩, ⟨(8, 9), ClientSource.Default ClientKind.Ream⟩, ⟨(10, 11), 1⟩, 1, []⟩,
         ⟨some ⟨(12, 13), "b"⟩, ⟨(14, 15), ClientSource.Default ClientKind.Ream⟩, ⟨(16, 17), 0⟩, 1, []⟩]⟩
      = .error (ConfigError.DuplicateName "a"
          (NodeNameDefinition.Singular (NodeNameSource.Name (6, 7)))
          (NodeNameDefinition.Singular (NodeNameSource.Name (0, 1)))) from rfl] at h
  cases h

/-- C4 amended: for every config containing a spec with count 0 such that
the specs preceding it resolve without error, resolve fails with
InvalidCount carrying that spec's count span, regardless of the later
specs. -/
theorem c4_invalid_count (netName : String) (pre rest : List NodeConfig)
    (spec0 : NodeConfig) (s : ResolvedNetworkConfig)
    (h0 : spec0.count.val = 0)
    (hok : resolveList pre ⟨[], [], []⟩ = .ok s) :
    NetworkConfig.resolve ⟨netName, pre ++ spec0 :: rest⟩
      = .error (ConfigError.InvalidCount spec0.count.span) := by
  unfold NetworkConfig.resolve
  rw [resolveList_append, hok]
  simp [resolveList, ResolvedNetworkConfig.resolveNode, h0]

theorem c4_invalid_count_witness :
    ((⟨some ⟨(12, 13), "b"⟩, ⟨(14, 15), ClientSource.Default ClientKind.Ream⟩,
        ⟨(16, 17), 0⟩, 1, []⟩ : NodeConfig)).count.val = 0 ∧
    resolveList [⟨some ⟨(0, 1), "a"⟩, ⟨(2, 3), ClientSource.Default ClientKind.Ream⟩,
        ⟨(4, 5), 1⟩, 1, []⟩] ⟨[], [], []⟩
      = .ok ⟨[⟨[], []⟩],
          [("a", ⟨NodeNameDefinition.Singular (NodeNameSource.Name (0, 1)), [0]⟩)], []⟩ ∧
    NetworkConfig.resolve ⟨"net",
        [⟨some ⟨(0, 1), "a"⟩, ⟨(2, 3), ClientSource.Default ClientKind.Ream⟩, ⟨(4, 5), 1⟩, 1, []⟩]
          ++ (⟨some ⟨(12, 13), "b"⟩, ⟨(14, 15), ClientSource.Default ClientKind.Ream⟩,
              ⟨(16, 17), 0⟩, 1, []⟩ : NodeConfig)
          :: [⟨some ⟨(20, 21), "c"⟩, ⟨(22, 23), ClientSource.Default ClientKind.Ream⟩,
              ⟨(24, 25), 1⟩, 1, []⟩]⟩
      = .error (ConfigError.InvalidCount (16, 17)) :=
  ⟨rfl, rfl,
    c4_invalid_count "net" _ _ _ _ rfl rfl⟩

/-- C5 counterexample: the example config of the spec resolves to 7
validators, not 9: the first node has no validator_count field, so it
defaults to 1. -/
theorem c5_counterexample :
    ((NetworkConfig.resolve ⟨"net",
        [⟨some ⟨(10, 13), "a"⟩, ⟨(20, 26), ClientSource.Default ClientKind.Ream⟩,
          default_count, default_validator_count, []⟩,
         ⟨none, ⟨(30, 36), ClientSource.Default ClientKind.Zeam⟩, ⟨(40, 41), 2⟩, 3, []⟩]⟩).toOption.map
      (fun s => s.validators.length)) = some 7 ∧
    ((NetworkConfig.resolve ⟨"net",
        [⟨some ⟨(10, 13), "a"⟩, ⟨(20, 26), ClientSource.Default ClientKind.Ream⟩,
          default_count, default_validator_count, []⟩,
         ⟨none, ⟨(30, 36), ClientSource.Default ClientKind.Zeam⟩, ⟨(40, 41), 2⟩, 3, []⟩]⟩).toOption.map
      (fun s => s.validators.length)) ≠ some 9 := by
  refine ⟨rfl, ?_⟩
  intro h
  rw [show ((NetworkConfig.resolve ⟨"net",
        [⟨some ⟨(10, 13), "a"⟩, ⟨(20, 26), ClientSource.Default ClientKind.Ream⟩,
          default_count, default_validator_count, []⟩,
         ⟨none, ⟨(30, 36), ClientSource.Default ClientKind.Zeam⟩, ⟨(40, 41), 2⟩, 3, []⟩]⟩).toOption.map
      (fun s => s.validators.length)) = some 7 from rfl] at h
  cases h

/-- C5 amended: the example config resolves to exactly three nodes, a with
validator index 0, zeam_0 with indices 1, 2, 3 and zeam_1 with indices
4, 5, 6, and a validator list of length 7. -/
theorem c5_example :
    NetworkConfig.resolve ⟨"net",
        [⟨some ⟨(10, 13), "a"⟩, ⟨(20, 26), ClientSource.Default ClientKind.Ream⟩,
          default_count, default_validator_count, []⟩,
         ⟨none, ⟨(30, 36), ClientSource.Default ClientKind.Zeam⟩, ⟨(40, 41), 2⟩, 3, []⟩]⟩
      = .ok ⟨[⟨[], []⟩, ⟨[], []⟩, ⟨[], []⟩, ⟨[], []⟩, ⟨[], []⟩, ⟨[], []⟩, ⟨[], []⟩],
          [("a", ⟨NodeNameDefinition.Singular (NodeNameSource.Name (10, 13)), [0]⟩),
           ("zeam_0", ⟨NodeNameDefinition.PrefixDef "zeam" (NodeNameSource.Kind (30, 36)) (40, 41),
              [1, 2, 3]⟩),
           ("zeam_1", ⟨NodeNameDefinition.PrefixDef "zeam" (NodeNameSource.Kind (30, 36)) (40, 41),
              [4, 5, 6]⟩)],
          [("zeam", 1)]⟩ := rfl

/-- C6: whenever resolve succeeds, each resolved node's validator index
list is a contiguous range, the lists are pairwise disjoint, their union
is exactly the indices below the validator-list length, in resolution
order they flatten to exactly that interval, and the node entries split
into one block per spec, in spec order, each entry of a spec's block
holding exactly that spec's validator_count indices (so each node's set
is a contiguous run of its spec's validator_count indices). -/
theorem c6_validator_partition (cfg : NetworkConfig) (s : ResolvedNetworkConfig)
    (h : cfg.resolve = .ok s) :
    (∀ e ∈ s.nodes, ∃ st, e.2.validators = List.range' st e.2.validators.length) ∧
    List.Pairwise (fun a b => ∀ x ∈ a.2.validators, x ∉ b.2.validators) s.nodes ∧
    (∀ i, (∃ e ∈ s.nodes, i ∈ e.2.validators) ↔ i < s.validators.length) ∧
    (s.nodes.map (fun e => e.2.validators)).flatten
      = List.range' 0 s.validators.length ∧
    (∃ blocks : List (List (String × ResolvedNodeConfig)),
      s.nodes = blocks.flatten ∧
      List.Forall₂ (fun (node : NodeConfig) blk =>
        blk.length = node.count.val ∧
        ∀ e ∈ blk, e.2.validators.length = node.validator_count) cfg.node blocks) := by
  have hinv : ValidatorInv s :=
    resolveList_inv cfg.node ⟨[], [], []⟩ s h ⟨by simp, by simp⟩
  refine ⟨hinv.2, ?_, ?_, hinv.1, ?_⟩
  · have hnd : (s.nodes.map (fun e => e.2.validators)).flatten.Nodup := by
      rw [hinv.1]
      exact List.nodup_range' _ _
    rw [List.nodup_flatten] at hnd
    have hp := hnd.2
    rw [List.pairwise_map] at hp
    exact hp.imp (fun hd x hx hx2 => hd hx hx2)
  · intro i
    have hm : i ∈ (s.nodes.map (fun e => e.2.validators)).flatten
        ↔ i < s.validators.length := by
      rw [hinv.1, List.mem_range'_1]
      omega
    rw [← hm, List.mem_flatten]
    constructor
    · rintro ⟨e, he, hie⟩
      exact ⟨e.2.validators, List.mem_map_of_mem _ he, hie⟩
    · rintro ⟨l, hl, hil⟩
      obtain ⟨e, he, rfl⟩ := List.mem_map.mp hl
      exact ⟨e, he, hil⟩
  · obtain ⟨blocks, hb, hf⟩ := resolveList_blocks cfg.node ⟨[], [], []⟩ s h
    exact ⟨blocks, by simpa using hb, hf⟩

theorem c6_validator_partition_witness :
    NetworkConfig.resolve cfgC1w = .ok
      ⟨[⟨[], []⟩, ⟨[], []⟩, ⟨[], []⟩, ⟨[], []⟩, ⟨[], []⟩, ⟨[], []⟩, ⟨[], []⟩],
        [("a", ⟨NodeNameDefinition.Singular (NodeNameSource.Name (10, 13)), [0]⟩),
         ("zeam_0", ⟨NodeNameDefinition.PrefixDef "zeam" (NodeNameSource.Kind (30, 36)) (40, 41),
            [1, 2, 3]⟩),
         ("zeam_1", ⟨NodeNameDefinition.PrefixDef "zeam" (NodeNameSource.Kind (30, 36)) (40, 41),
            [4, 5, 6]⟩)],
        [("zeam", 1)]⟩ ∧
    ((∀ e ∈ (⟨[⟨[], []⟩, ⟨[], []⟩, ⟨[], []⟩, ⟨[], []⟩, ⟨[], []⟩, ⟨[], []⟩, ⟨[], []⟩],
        [("a", ⟨NodeNameDefinition.Singular (NodeNameSource.Name (10, 13)), [0]⟩),
         ("zeam_0", ⟨NodeNameDefinition.PrefixDef "zeam" (NodeNameSource.Kind (30, 36)) (40, 41),
            [1, 2, 3]⟩),
         ("zeam_1", ⟨NodeNameDefinition.PrefixDef "zeam" (NodeNameSource.Kind (30, 36)) (40, 41),
            [4, 5, 6]⟩)],
        [("zeam", 1)]⟩ : ResolvedNetworkConfig).nodes,
        ∃ st, e.2.validators = List.range' st e.2.validators.length)) :=
  ⟨rfl, (c6_validator_partition cfgC1w _ rfl).1⟩

/-- C7: when two specs with count 1 and the same explicit name are the
first colliding identities (everything before the second one resolves
without error), resolve fails with DuplicateName whose prev_def is
Singular of the first spec's name span and whose curr_def is Singular of
the second spec's name span. -/
theorem c7_duplicate_singular (netName : String) (pre mid rest : List NodeConfig)
    (spec1 spec2 : NodeConfig) (nm : String) (sp1 sp2 : Span)
    (s : ResolvedNetworkConfig)
    (h1n : spec1.name = some ⟨sp1, nm⟩) (h1c : spec1.count.val = 1)
    (h2n : spec2.name = some ⟨sp2, nm⟩) (h2c : spec2.count.val = 1)
    (hok : resolveList (pre ++ spec1 :: mid) ⟨[], [], []⟩ = .ok s) :
    NetworkConfig.resolve ⟨netName, pre ++ spec1 :: (mid ++ spec2 :: rest)⟩
      = .error (ConfigError.DuplicateName nm
          (NodeNameDefinition.Singular (NodeNameSource.Name sp2))
          (NodeNameDefinition.Singular (NodeNameSource.Name sp1))) := by
  have hok0 := hok
  rw [resolveList_append] at hok
  cases hpre : resolveList pre ⟨[], [], []⟩ <;> rw [hpre] at hok
  · cases hok
  case ok s0 =>
  simp only [resolveList] at hok
  cases hs1 : s0.resolveNode spec1 <;> rw [hs1] at hok
  · cases hok
  case ok s1 =>
  rw [resolveNode_singular s0 spec1 nm sp1 h1n h1c] at hs1
  cases halk0 : alookup s0.nodes nm <;> rw [halk0] at hs1
  case some => cases hs1
  case none =>
  injection hs1 with hs1
  obtain ⟨tail, htail⟩ := resolveList_mono mid _ s hok
  rw [← hs1] at htail
  have hlk : alookup s.nodes nm
      = some ⟨NodeNameDefinition.Singular (NodeNameSource.Name sp1),
          List.range' s0.validators.length spec1.validator_count⟩ := by
    rw [htail]
    simp only [List.append_assoc]
    rw [alookup_append, halk0]
    simp [alookup]
  unfold NetworkConfig.resolve
  have hsplit : pre ++ spec1 :: (mid ++ spec2 :: rest)
      = (pre ++ spec1 :: mid) ++ (spec2 :: rest) := by simp
  rw [hsplit, resolveList_append, hok0]
  simp only [resolveList]
  rw [resolveNode_singular s spec2 nm sp2 h2n h2c, hlk]

theorem c7_duplicate_singular_witness :
    ((⟨some ⟨(0, 1), "a"⟩, ⟨(2, 3), ClientSource.Default ClientKind.Ream⟩,
        ⟨(4, 5), 1⟩, 1, []⟩ : NodeConfig)).name = some ⟨(0, 1), "a"⟩ ∧
    resolveList ([] ++ (⟨some ⟨(0, 1), "a"⟩, ⟨(2, 3), ClientSource.Default ClientKind.Ream⟩,
        ⟨(4, 5), 1⟩, 1, []⟩ : NodeConfig) :: []) ⟨[], [], []⟩
      = .ok ⟨[⟨[], []⟩],
          [("a", ⟨NodeNameDefinition.Singular (NodeNameSource.Name (0, 1)), [0]⟩)], []⟩ ∧
    NetworkConfig.resolve ⟨"net",
        [] ++ (⟨some ⟨(0, 1), "a"⟩, ⟨(2, 3), ClientSource.Default ClientKind.Ream⟩,
            ⟨(4, 5), 1⟩, 1, []⟩ : NodeConfig)
          :: ([] ++ (⟨some ⟨(6, 7), "a"⟩, ⟨(8, 9), ClientSource.Default ClientKind.Zeam⟩,
            ⟨(10, 11), 1⟩, 1, []⟩ : NodeConfig) :: [])⟩
      = .error (ConfigError.DuplicateName "a"
          (NodeNameDefinition.Singular (NodeNameSource.Name (6, 7)))
          (NodeNameDefinition.Singular (NodeNameSource.Name (0, 1)))) :=
  ⟨rfl, rfl,
    c7_duplicate_singular "net" [] [] [] _ _ "a" (0, 1) (6, 7) _ rfl rfl rfl rfl rfl⟩

/-- C8: the node-name table is one global table: whenever the name the
next instance is about to claim is already occupied, whatever the two
definitions' provenance (Singular or PrefixDef), the step reports
DuplicateName carrying the occupant's definition as prev_def and the
colliding occurrence's definition as curr_def; the collision is never
discarded. -/
theorem c8_collision_reported (node_id : String) (src : NodeNameSource)
    (count : Nat) (cspan : Span) (vc : Nat) (s : ResolvedNetworkConfig)
    (old : ResolvedNodeConfig)
    (h : alookup s.nodes (nextNameDef s.counters node_id src count cspan).1 = some old) :
    resolveStep node_id src count cspan vc s
      = .error (ConfigError.DuplicateName
          (nextNameDef s.counters node_id src count cspan).1
          (nextNameDef s.counters node_id src count cspan).2.1 old.defn) := by
  simp only [resolveStep, h]

theorem c8_collision_reported_witness :
    alookup ([("zeam_0", ⟨NodeNameDefinition.Singular (NodeNameSource.Name (0, 1)), [0]⟩)] :
        List (String × ResolvedNodeConfig))
      (nextNameDef [] "zeam" (NodeNameSource.Kind (2, 3)) 2 (4, 5)).1
      = some ⟨NodeNameDefinition.Singular (NodeNameSource.Name (0, 1)), [0]⟩ ∧
    resolveStep "zeam" (NodeNameSource.Kind (2, 3)) 2 (4, 5) 1
        ⟨[⟨[], []⟩],
         [("zeam_0", ⟨NodeNameDefinition.Singular (NodeNameSource.Name (0, 1)), [0]⟩)], []⟩
      = .error (ConfigError.DuplicateName "zeam_0"
          (NodeNameDefinition.PrefixDef "zeam" (NodeNameSource.Kind (2, 3)) (4, 5))
          (NodeNameDefinition.Singular (NodeNameSource.Name (0, 1)))) :=
  ⟨rfl,
    c8_collision_reported "zeam" (NodeNameSource.Kind (2, 3)) 2 (4, 5) 1
      ⟨[⟨[], []⟩],
       [("zeam_0", ⟨NodeNameDefinition.Singular (NodeNameSource.Name (0, 1)), [0]⟩)], []⟩
      ⟨NodeNameDefinition.Singular (NodeNameSource.Name (0, 1)), [0]⟩ rfl⟩

/-- C9 counterexample: ClientKind parsing is case-sensitive, not
case-insensitive: the case variant Ream of the canonical identifier ream
is rejected. -/
theorem c9_counterexample :
    ClientKind.fromStr "Ream" = none ∧ ClientKind.toString ClientKind.Ream = "ream" :=
  ⟨rfl, rfl⟩

/-- C9 amended: ClientKind parsing accepts exactly the fixed snake_case
identifiers, case-sensitively; rendering a kind produces its canonical
text, and parsing that canonical text yields the same kind back. -/
theorem c9_parse_render (k : ClientKind) (s : String) :
    ClientKind.fromStr (ClientKind.toString k) = some k ∧
    kindStrings.contains (ClientKind.toString k) = true ∧
    (ClientKind.fromStr s).isSome = kindStrings.contains s := by
  refine ⟨by cases k <;> rfl, by cases k <;> rfl, ?_⟩
  simp only [ClientKind.fromStr, kindStrings]
  repeat' split
  all_goals simp_all

/-- C10: a spec with count 1 neither reads nor advances the prefix-counter
table: its outcome is the same for any two counter tables, and on success
the counter table is returned unchanged. -/
theorem c10_singular_ignores_counters (node : NodeConfig) (h : node.count.val = 1)
    (v : List ResolvedValidatorConfig) (nds : List (String × ResolvedNodeConfig))
    (c c' : List (String × Nat)) :
    match ResolvedNetworkConfig.resolveNode ⟨v, nds, c⟩ node,
          ResolvedNetworkConfig.resolveNode ⟨v, nds, c'⟩ node with
    | .ok s1, .ok s2 => s1.counters = c ∧ s2.counters = c'
        ∧ s1.validators = s2.validators ∧ s1.nodes = s2.nodes
    | .error e1, .error e2 => e1 = e2
    | _, _ => False := by
  simp only [ResolvedNetworkConfig.resolveNode, h, resolveLoop, resolveStep, nextNameDef]
  cases halk : alookup nds (specBasis node).1 <;> simp [halk, resolveLoop]

theorem c10_singular_ignores_counters_witness :
    ((⟨some ⟨(0, 1), "a"⟩, ⟨(2, 3), ClientSource.Default ClientKind.Ream⟩,
        ⟨(4, 5), 1⟩, 1, []⟩ : NodeConfig)).count.val = 1 ∧
    (match ResolvedNetworkConfig.resolveNode ⟨[], [], [("p", 3)]⟩
          ⟨some ⟨(0, 1), "a"⟩, ⟨(2, 3), ClientSource.Default ClientKind.Ream⟩,
            ⟨(4, 5), 1⟩, 1, []⟩,
        ResolvedNetworkConfig.resolveNode ⟨[], [], []⟩
          ⟨some ⟨(0, 1), "a"⟩, ⟨(2, 3), ClientSource.Default ClientKind.Ream⟩,
            ⟨(4, 5), 1⟩, 1, []⟩ with
      | .ok s1, .ok s2 => s1.counters = [("p", 3)] ∧ s2.counters = []
          ∧ s1.validators = s2.validators ∧ s1.nodes = s2.nodes
      | .error e1, .error e2 => e1 = e2
      | _, _ => False) :=
  ⟨rfl,
    c10_singular_ignores_counters
      ⟨some ⟨(0, 1), "a"⟩, ⟨(2, 3), ClientSource.Default ClientKind.Ream⟩, ⟨(4, 5), 1⟩, 1, []⟩
      rfl [] [] [("p", 3)] []⟩

end Quickstart
